import Mathlib

/-!
Verification of the `tryagain` retry library.

The development shallowly embeds the library's Rust source:

* `src/backoff.rs` — the `Backoff` trait and its three implementations
  (`ExponentialBackoff`, `ImmediateBackoff`, `MinimumBackoff`).  The trait
  method `backoff_period(&mut self, iterations: u32) -> Duration` is embedded
  as a state-passing function `state → Nat → Nat × state`; durations are
  measured in whole milliseconds (a `Nat`), matching `Duration::from_millis`.
  The `f32` field `base` is embedded as the exact rational number the float
  denotes; the wrapping Rust cast `iterations as i32` is embedded as
  `u32AsI32` (attempt counts from `2^31` on become negative exponents); and
  the Rust cast `(y * 100.0) as u64` is embedded as `millisOfFloat`:
  truncation toward zero, saturating at `0` below and at `u64::MAX` above,
  which is the defined behavior of Rust float-to-int `as` casts (an `f32`
  `+inf` from an overflowed `powi` also casts to `u64::MAX`, and the exact
  rational value it stands for also saturates to `u64::MAX`, so the model and
  the program agree there too).  Every test vector checked below only
  involves values that are exactly representable in `f32` (`1.25 = 5/4`, its
  powers up to `125/64`, `10` and its powers up to `1000`, and the products
  with `100`), so on those inputs the rational model computes exactly what
  the `f32` program computes.

* `src/sync.rs` — `retry_if` / `retry` as a fuel-indexed loop over a
  deterministic stream of operation outcomes `ops : Nat → Except E T`
  (the value of the i-th factory invocation), recording a trace of factory
  invocations and of the attempt-count arguments passed to the predicate and
  to the backoff policy.

* `src/future.rs` — `RetryFuture::poll` as a step function on the task state
  (`iterations`, `paused_until`, index of the in-flight attempt), with the
  wall clock passed in as `now`; a fuel-indexed driver repeatedly polls at
  the registered deadline, modelling a scheduler whose wake signal fires at
  the deadline.  In-flight attempts resolve deterministically when polled,
  modelling a deterministic sequence of operation outcomes.
-/

/-- Rust `u64::MAX`, the upper saturation bound of an `as u64` float cast. -/
def u64Max : Nat := 2 ^ 64 - 1

/-- Embeds the Rust expression `Duration::from_millis(y as u64)` applied to a
finite `f32` value `y`, with the float value represented by the exact rational
it denotes: `as u64` truncates toward zero and saturates to `0` for negative
inputs and to `u64::MAX` for inputs above `u64::MAX`. -/
def millisOfFloat (y : ℚ) : Nat := min (Int.toNat ⌊y⌋) u64Max

/-- Evaluation lemma for `millisOfFloat`: if `y` lies in `[k, k+1)` for a
natural number `k` below the saturation bound, the cast returns `k`. -/
theorem millisOfFloat_eq_of (y : ℚ) (k : Nat) (hk : k ≤ u64Max) (h1 : (k : ℚ) ≤ y)
    (h2 : y < k + 1) : millisOfFloat y = k := by
  have hf : ⌊y⌋ = (k : ℤ) := by
    rw [Int.floor_eq_iff]
    exact ⟨by exact_mod_cast h1, by push_cast; exact h2⟩
  simp [millisOfFloat, hf, min_eq_left hk]

/-- Embeds `struct ExponentialBackoff { base: f32, instant: Instant }` from
`src/backoff.rs`.  The `instant` field is an abstract construction timestamp;
the source never reads it. -/
structure ExponentialBackoff where
  base : ℚ
  instant : Nat
deriving DecidableEq

/-- Embeds the wrapping Rust cast `iterations as i32` applied to a `u32`
value: bit patterns below `2^31` keep their value, the rest become negative
by subtracting `2^32`.  (The `% 2^32` totalizes the model on `Nat`; on the
`u32` domain of the source it is the identity.) -/
def u32AsI32 (n : Nat) : ℤ :=
  if n % 2 ^ 32 < 2 ^ 31 then ((n % 2 ^ 32 : Nat) : ℤ) else ((n % 2 ^ 32 : Nat) : ℤ) - 2 ^ 32

/-- The delay computation of `ExponentialBackoff::backoff_period`:
`y = self.base.powi(iterations as i32) - 1.0;
Duration::from_millis((y * 100.0) as u64)`, with the wrapping cast kept.
The power is the exact rational one; for base 0 with a wrapped-negative
exponent the field convention `0⁻¹ = 0` differs from the `+inf` of `powi`
(no theorem below evaluates that point), and wherever the true value exceeds
`u64::MAX` the saturating cast returns `u64::MAX`, exactly as the program's
cast does on an overflowed `+inf`. -/
def expPeriod (base : ℚ) (iterations : Nat) : Nat :=
  millisOfFloat ((base ^ u32AsI32 iterations - 1) * 100)

/-- Below the wrap boundary the `iterations as i32` cast is the identity. -/
theorem u32AsI32_of_lt (n : Nat) (h : n < 2 ^ 31) : u32AsI32 n = (n : ℤ) := by
  have h32 : n % 2 ^ 32 = n := Nat.mod_eq_of_lt (lt_trans h (by norm_num))
  unfold u32AsI32
  rw [h32, if_pos h]

/-- At the wrap boundary the cast turns `2^31` into `−2^31`. -/
theorem u32AsI32_wrap : u32AsI32 (2 ^ 31) = -(2 ^ 31 : ℤ) := by
  have h32 : (2 ^ 31 : Nat) % 2 ^ 32 = 2 ^ 31 := Nat.mod_eq_of_lt (by norm_num)
  unfold u32AsI32
  rw [h32, if_neg (lt_irrefl _)]
  norm_num

/-- On non-wrapping attempt counts the exponential delay is the one of the
plain natural-number power. -/
theorem expPeriod_of_lt (base : ℚ) (n : Nat) (h : n < 2 ^ 31) :
    expPeriod base n = millisOfFloat ((base ^ n - 1) * 100) := by
  unfold expPeriod
  rw [u32AsI32_of_lt n h, zpow_natCast]

/-- Evaluation lemma for `millisOfFloat` on non-positive inputs: the cast
saturates to zero. -/
theorem millisOfFloat_eq_zero_of (y : ℚ) (h : y ≤ 0) : millisOfFloat y = 0 := by
  have hf : ⌊y⌋ ≤ 0 := Int.floor_nonpos h
  simp [millisOfFloat, Int.toNat_of_nonpos hf]

/-- Evaluation lemma for `millisOfFloat` above the saturation bound: the cast
returns `u64::MAX`. -/
theorem millisOfFloat_eq_max_of (y : ℚ) (h : (u64Max : ℚ) ≤ y) :
    millisOfFloat y = u64Max := by
  have hf : (u64Max : ℤ) ≤ ⌊y⌋ := Int.le_floor.mpr (by exact_mod_cast h)
  have h2 : u64Max ≤ Int.toNat ⌊y⌋ := by omega
  simp [millisOfFloat, min_eq_right h2]

/-- Any power `2^m` with `m ≥ 65` drives the delay formula past the
saturation bound. -/
theorem millisOfFloat_two_pow_big (m : Nat) (h : 65 ≤ m) :
    millisOfFloat (((2 : ℚ) ^ m - 1) * 100) = u64Max := by
  apply millisOfFloat_eq_max_of
  have hp : (2 : ℚ) ^ (65 : ℕ) ≤ 2 ^ m := pow_le_pow_right₀ (by norm_num) h
  have hb : ((u64Max : ℚ)) ≤ ((2 : ℚ) ^ (65 : ℕ) - 1) * 100 := by norm_num [u64Max]
  linarith

/-- Embeds `impl Backoff for ExponentialBackoff`: the method body reads only
`self.base`, writes nothing, and hands `self` back unchanged. -/
def ExponentialBackoff.backoff_period (s : ExponentialBackoff) (iterations : Nat) :
    Nat × ExponentialBackoff :=
  (expPeriod s.base iterations, s)

/-- Embeds `ExponentialBackoff::with_base`, recording the construction-time
clock reading in `instant`. -/
def ExponentialBackoff.with_base (base : ℚ) (now : Nat) : ExponentialBackoff :=
  ⟨base, now⟩

/-- Embeds `impl Default for ExponentialBackoff`: base `1.25 = 5/4`. -/
def ExponentialBackoff.defaultPolicy (now : Nat) : ExponentialBackoff :=
  ⟨5 / 4, now⟩

/-- Embeds the field-less `struct ImmediateBackoff`. -/
inductive ImmediateBackoff where
  | mk
deriving DecidableEq

/-- Embeds `impl Backoff for ImmediateBackoff`: always `Duration::from_secs(0)`. -/
def ImmediateBackoff.backoff_period (s : ImmediateBackoff) (_iterations : Nat) :
    Nat × ImmediateBackoff :=
  (0, s)

/-- Embeds `struct MinimumBackoff<T: Backoff>`: the inner policy is carried as
its state together with its (state-passing) `backoff_period` method. -/
structure MinimumBackoff (σ : Type) where
  innerStep : σ → Nat → Nat × σ
  innerState : σ
  min_duration : Nat

/-- Embeds `impl Backoff for MinimumBackoff`:
`self.min_duration.max(self.inner.backoff_period(iterations))`. -/
def MinimumBackoff.backoff_period {σ : Type} (s : MinimumBackoff σ) (iterations : Nat) :
    Nat × MinimumBackoff σ :=
  let r := s.innerStep s.innerState iterations
  (max s.min_duration r.1, { s with innerState := r.2 })

/-- `MinimumBackoff::new(ImmediateBackoff, Duration::from_secs(1))`:
the immediate policy wrapped with a one-second (1000 ms) floor. -/
def oneSecondFloorImmediate : MinimumBackoff ImmediateBackoff :=
  ⟨ImmediateBackoff.backoff_period, ImmediateBackoff.mk, 1000⟩

/-- C5: the exponential policy satisfies the exact test vectors: with the
default base 1.25 `backoff_period` returns 0, 25, 56 and 95 ms on attempt
counts 0..3, and with base 10.0 it returns 0, 900, 9900 and 99900 ms, the
integer-millisecond truncation of `100 × (base ^ n − 1)`. -/
theorem exponential_backoff_test_vectors : ∀ t : Nat,
    (((ExponentialBackoff.defaultPolicy t).backoff_period 0).1 = 0 ∧
      ((ExponentialBackoff.defaultPolicy t).backoff_period 1).1 = 25 ∧
      ((ExponentialBackoff.defaultPolicy t).backoff_period 2).1 = 56 ∧
      ((ExponentialBackoff.defaultPolicy t).backoff_period 3).1 = 95) ∧
    (((ExponentialBackoff.with_base 10 t).backoff_period 0).1 = 0 ∧
      ((ExponentialBackoff.with_base 10 t).backoff_period 1).1 = 900 ∧
      ((ExponentialBackoff.with_base 10 t).backoff_period 2).1 = 9900 ∧
      ((ExponentialBackoff.with_base 10 t).backoff_period 3).1 = 99900) := by
  intro t
  simp only [ExponentialBackoff.backoff_period, ExponentialBackoff.defaultPolicy,
    ExponentialBackoff.with_base]
  refine ⟨⟨?_, ?_, ?_, ?_⟩, ?_, ?_, ?_, ?_⟩ <;>
    rw [expPeriod_of_lt _ _ (by norm_num)] <;>
    apply millisOfFloat_eq_of <;> norm_num [u64Max]

/-- C6: the minimum-bound decorator returns `max min_duration (inner period)`
for every inner policy, floor and attempt count; wrapping the immediate policy
(zero for all n) with a 1-second floor yields exactly 1000 ms for every n. -/
theorem minimum_backoff_is_max :
    (∀ (σ : Type) (s : MinimumBackoff σ) (n : Nat),
        (s.backoff_period n).1 = max s.min_duration (s.innerStep s.innerState n).1) ∧
    (∀ m : Nat, (ImmediateBackoff.mk.backoff_period m).1 = 0) ∧
    (∀ n : Nat, (oneSecondFloorImmediate.backoff_period n).1 = 1000) := by
  refine ⟨fun σ s n => rfl, fun m => rfl, fun n => ?_⟩
  simp [oneSecondFloorImmediate, MinimumBackoff.backoff_period,
    ImmediateBackoff.backoff_period]

/-- Refutes C7 as stated: monotonicity breaks at the wrap boundary of the
`iterations as i32` cast.  For base 2, attempt count `2^31 − 1` keeps its
positive exponent and the delay saturates to `u64::MAX` ms, while at `2^31`
the wrapped exponent is `−2^31`, the power is at most 1 and the delay is
0 ms — so the delay strictly decreases across the boundary. -/
theorem exponential_backoff_monotone_cex :
    1 < (2 : ℚ) ∧ expPeriod 2 (2 ^ 31 - 1) = u64Max ∧ expPeriod 2 (2 ^ 31) = 0 ∧
      ¬expPeriod 2 (2 ^ 31 - 1) ≤ expPeriod 2 (2 ^ 31) := by
  have hmax : expPeriod 2 (2 ^ 31 - 1) = u64Max := by
    rw [expPeriod_of_lt 2 (2 ^ 31 - 1) (by norm_num)]
    exact millisOfFloat_two_pow_big (2 ^ 31 - 1) (by norm_num)
  have hzero : expPeriod 2 (2 ^ 31) = 0 := by
    simp only [expPeriod, u32AsI32_wrap, zpow_neg]
    rw [show ((2 ^ 31 : ℤ)) = ((2 ^ 31 : ℕ) : ℤ) by norm_cast, zpow_natCast]
    apply millisOfFloat_eq_zero_of
    have hge : (1 : ℚ) ≤ 2 ^ (2 ^ 31 : ℕ) := one_le_pow₀ (by norm_num)
    have hinv : ((2 : ℚ) ^ (2 ^ 31 : ℕ))⁻¹ ≤ 1 := inv_le_one_of_one_le₀ hge
    exact mul_nonpos_iff.mpr (Or.inr ⟨sub_nonpos.mpr hinv, by norm_num⟩)
  refine ⟨by norm_num, hmax, hzero, ?_⟩
  rw [hmax, hzero]
  norm_num [u64Max]

/-- C7 (amended): below the wrap boundary of the `iterations as i32` cast —
attempt counts n with n + 1 < 2^31 — the exponential policy's delay is
monotonically non-decreasing in the attempt count for every base strictly
greater than 1. -/
theorem exponential_backoff_monotone (b : ℚ) (hb : 1 < b) (n : Nat)
    (hn : n + 1 < 2 ^ 31) : expPeriod b n ≤ expPeriod b (n + 1) := by
  rw [expPeriod_of_lt b n (lt_of_le_of_lt (Nat.le_succ n) hn),
    expPeriod_of_lt b (n + 1) hn]
  unfold millisOfFloat
  refine min_le_min (Int.toNat_le_toNat (Int.floor_le_floor ?_)) le_rfl
  have h1 : (1 : ℚ) ≤ b := le_of_lt hb
  have h2 : b ^ n ≤ b ^ (n + 1) := pow_le_pow_right₀ h1 (Nat.le_succ n)
  linarith

/-- Instantiates the amended C7 at base 2 between attempt counts 1 and 2. -/
theorem exponential_backoff_monotone_check :
    1 < (2 : ℚ) ∧ 1 + 1 < 2 ^ 31 ∧ expPeriod 2 1 ≤ expPeriod 2 2 :=
  ⟨by norm_num, by norm_num, exponential_backoff_monotone 2 (by norm_num) 1 (by norm_num)⟩

/-- C8: each provided policy is deterministic and stateless: `backoff_period`
hands the state back unchanged, repeating a query on the returned state gives
the same duration, and instances agreeing on their declared parameters (the
exponential base — the unused `instant` clock reading may differ) agree on
every duration; the minimum-bound decorator preserves its declared parameters
and inherits determinism from a stateless inner policy. -/
theorem backoff_policies_deterministic :
    (∀ (s s2 : ExponentialBackoff) (n : Nat),
        (s.backoff_period n).2 = s ∧
        ((s.backoff_period n).2.backoff_period n).1 = (s.backoff_period n).1 ∧
        (s.base = s2.base → (s.backoff_period n).1 = (s2.backoff_period n).1)) ∧
    (∀ (s s2 : ImmediateBackoff) (n : Nat),
        (s.backoff_period n).2 = s ∧
        (s.backoff_period n).1 = (s2.backoff_period n).1) ∧
    (∀ (σ : Type) (s : MinimumBackoff σ) (n : Nat),
        (s.backoff_period n).2.min_duration = s.min_duration ∧
        (s.backoff_period n).2.innerStep = s.innerStep ∧
        ((∀ (st : σ) (m : Nat), (s.innerStep st m).2 = st) →
          (s.backoff_period n).2 = s ∧
          ((s.backoff_period n).2.backoff_period n).1 = (s.backoff_period n).1)) := by
  refine ⟨fun s s2 n => ⟨rfl, rfl, fun hbase => ?_⟩,
    fun s s2 n => ⟨rfl, rfl⟩,
    fun σ s n => ⟨rfl, rfl, fun hst => ?_⟩⟩
  · simp [ExponentialBackoff.backoff_period, hbase]
  · have hstate : (s.backoff_period n).2 = s := by
      simp [MinimumBackoff.backoff_period, hst]
    exact ⟨hstate, by rw [hstate]⟩

/-- Instantiates C8: equal-base exponential instances with different
construction instants agree, and the one-second floor over the (stateless)
immediate policy leaves its state unchanged. -/
theorem backoff_policies_deterministic_check :
    ((ExponentialBackoff.mk (5 / 4) 0).backoff_period 3).1 =
      ((ExponentialBackoff.mk (5 / 4) 7).backoff_period 3).1 ∧
    (oneSecondFloorImmediate.backoff_period 2).2 = oneSecondFloorImmediate :=
  ⟨(backoff_policies_deterministic.1 ⟨5 / 4, 0⟩ ⟨5 / 4, 7⟩ 3).2.2 rfl,
    ((backoff_policies_deterministic.2.2 ImmediateBackoff oneSecondFloorImmediate 2).2.2
      (fun _ _ => rfl)).1⟩

/-- Refutes C10 as stated, twice over.  The base −2 satisfies b ≤ 1, yet at
attempt count 2 the exponential policy returns 300 ms, not 0, because
`(−2)^2 − 1 = 3` is positive.  And even on bases inside [−1, 1] the claim
fails once the `iterations as i32` cast wraps: base 1/2 satisfies
−1 ≤ b ≤ 1, yet at attempt count `2^31` the wrapped exponent is `−2^31`,
the power is `2^(2^31)` and the delay saturates to `u64::MAX` ms, not 0. -/
theorem exponential_backoff_nonpositive_base_cex :
    ((-2 : ℚ) ≤ 1 ∧ ((ExponentialBackoff.with_base (-2) 0).backoff_period 2).1 = 300) ∧
    ((-1 : ℚ) ≤ 1 / 2 ∧ (1 / 2 : ℚ) ≤ 1 ∧
      ((ExponentialBackoff.with_base (1 / 2) 0).backoff_period (2 ^ 31)).1 = u64Max) := by
  refine ⟨⟨by norm_num, ?_⟩, by norm_num, by norm_num, ?_⟩
  · simp only [ExponentialBackoff.backoff_period, ExponentialBackoff.with_base]
    rw [expPeriod_of_lt _ _ (by norm_num)]
    apply millisOfFloat_eq_of <;> norm_num [u64Max]
  · simp only [ExponentialBackoff.backoff_period, ExponentialBackoff.with_base,
      expPeriod, u32AsI32_wrap]
    rw [show (1 / 2 : ℚ) = (2 : ℚ)⁻¹ by norm_num, inv_zpow', neg_neg,
      show ((2 ^ 31 : ℤ)) = ((2 ^ 31 : ℕ) : ℤ) by norm_cast, zpow_natCast]
    exact millisOfFloat_two_pow_big (2 ^ 31) (by norm_num)

/-- C10 (amended): for every base b with −1 ≤ b ≤ 1 (so in particular the
degenerate cases b = 1 and 0 < b < 1) and every attempt count n below the
wrap boundary 2^31 of the `iterations as i32` cast, the exponential policy
returns exactly 0 ms: the exponent is the non-negative n itself, so
`100 × (b^n − 1)` is zero or negative and the unsigned cast saturates to
zero. -/
theorem exponential_backoff_zero_of_base_le_one (b : ℚ) (h1 : -1 ≤ b) (h2 : b ≤ 1)
    (n t : Nat) (hn : n < 2 ^ 31) :
    ((ExponentialBackoff.with_base b t).backoff_period n).1 = 0 := by
  have habs : |b| ≤ 1 := abs_le.mpr ⟨h1, h2⟩
  have hpow : b ^ n ≤ 1 := by
    calc b ^ n ≤ |b ^ n| := le_abs_self _
      _ = |b| ^ n := abs_pow b n
      _ ≤ 1 := pow_le_one₀ (abs_nonneg b) habs
  have hy : (b ^ n - 1) * 100 ≤ 0 := by nlinarith
  simp only [ExponentialBackoff.backoff_period, ExponentialBackoff.with_base]
  rw [expPeriod_of_lt b n hn]
  exact millisOfFloat_eq_zero_of _ hy

/-- Instantiates the amended C10 at base 1/2, attempt count 3. -/
theorem exponential_backoff_zero_of_base_le_one_check :
    (-1 : ℚ) ≤ 1 / 2 ∧ (1 / 2 : ℚ) ≤ 1 ∧ (3 : Nat) < 2 ^ 31 ∧
      ((ExponentialBackoff.with_base (1 / 2) 0).backoff_period 3).1 = 0 :=
  ⟨by norm_num, by norm_num, by norm_num,
    exponential_backoff_zero_of_base_le_one (1 / 2) (by norm_num) (by norm_num) 3 0
      (by norm_num)⟩

/-!
The retry engines.  Operations are embedded as a deterministic stream
`ops : Nat → Except E T` giving the outcome of the i-th factory invocation
(`Except.ok` for `Ok`, `Except.error` for `Err`); the backoff policy is
queried through the pure delay function `backoff : Nat → Nat` (the provided
policies are stateless, see `backoff_policies_deterministic`).  A run records,
besides the final result, how often the factory was invoked and which
attempt-count arguments were passed to the predicate and to the backoff
policy. -/

deriving instance DecidableEq for Except

/-- Observable trace of one (fuel-bounded) retry run: the final result
(`none` while the run is still looping when the fuel ends), the number of
factory invocations, the attempt-count arguments passed to the continuation
predicate and to `backoff_period` in order, and the final value of the
`iterations` counter. -/
structure RunTrace (T E : Type) where
  result : Option (Except E T)
  factoryCalls : Nat
  predArgs : List Nat
  backoffArgs : List Nat
  finalIter : Nat
deriving DecidableEq

namespace Sync

/-- Embeds the loop body of `retry_if` in `src/sync.rs`: `iterations` starts
at 0; each turn invokes the factory; `Ok(value)` returns immediately; on
`Err(e)`, if `predicate(&e, iterations)` is false the error is returned
as-is, otherwise the thread sleeps for `backoff.backoff_period(iterations)`
and `iterations` is incremented before the next turn.  `callIdx` counts
factory invocations made so far and `fuel` bounds the number of loop turns
observed. -/
def loop {T E : Type} (backoff : Nat → Nat) (ops : Nat → Except E T)
    (predicate : E → Nat → Bool) : Nat → Nat → Nat → RunTrace T E
  | 0, _, iterations => ⟨none, 0, [], [], iterations⟩
  | fuel + 1, callIdx, iterations =>
    match ops callIdx with
    | .ok value => ⟨some (.ok value), 1, [], [], iterations⟩
    | .error e =>
      if predicate e iterations then
        let rest := loop backoff ops predicate fuel (callIdx + 1) (iterations + 1)
        ⟨rest.result, rest.factoryCalls + 1, iterations :: rest.predArgs,
          iterations :: rest.backoffArgs, rest.finalIter⟩
      else
        ⟨some (.error e), 1, [iterations], [], iterations⟩

/-- Embeds `sync::retry_if`: run the loop from `iterations = 0` with no
factory calls made yet. -/
def retry_if {T E : Type} (backoff : Nat → Nat) (ops : Nat → Except E T)
    (predicate : E → Nat → Bool) (fuel : Nat) : RunTrace T E :=
  loop backoff ops predicate fuel 0 0

/-- Embeds `sync::retry`: `retry_if` with the always-true predicate
`|_, _| true`; `some (some v)` is a returned success value, `some none` is
the `unreachable!()` trap on the error branch, and `none` means the loop was
still running when the fuel ended. -/
def retry {T E : Type} (backoff : Nat → Nat) (ops : Nat → Except E T)
    (fuel : Nat) : Option (Option T) :=
  match (retry_if backoff ops (fun _ _ => true) fuel).result with
  | some (.ok value) => some (some value)
  | some (.error _) => some none
  | none => none

end Sync

namespace Async

/-- Poll outcome, embedding `std::task::Poll`. -/
inductive Poll (α : Type) where
  | ready : α → Poll α
  | pending : Poll α
deriving DecidableEq

/-- Embeds the mutable state of `RetryFuture` in `src/future.rs`:
the `iterations` counter, the `paused_until: Option<Instant>` deadline
(instants are abstract clock readings, a `Nat`), and the index of the
in-flight attempt among the outcomes stream (`futureIdx = i` means the
current `future` field came from the i-th factory invocation). -/
structure RetryState where
  iterations : Nat
  paused_until : Option Nat
  futureIdx : Nat
deriving DecidableEq

/-- Everything one call to `RetryFuture::poll` produces: the poll result,
the successor state, how many fresh attempts the factory produced (0 or 1),
the attempt-count arguments passed to the predicate and to the backoff
policy, and whether the in-flight attempt was polled at all. -/
structure PollOut (T E : Type) where
  res : Poll (Except E T)
  state : RetryState
  factoryCalls : Nat
  predArgs : List Nat
  backoffArgs : List Nat
  polledInner : Bool
deriving DecidableEq

/-- Embeds the part of `RetryFuture::poll` after the pause check, with the
in-flight attempt resolving deterministically to `ops futureIdx` when polled:
on `Ok` the task is done; on `Err(e)` the counter is incremented first, then
`predicate(&e, iterations)` decides between returning the error and creating
a fresh attempt, querying `backoff_period(iterations)` and pausing until
`now + duration`. -/
def pollCore {T E : Type} (backoff : Nat → Nat) (ops : Nat → Except E T)
    (predicate : E → Nat → Bool) (now : Nat) (s : RetryState) : PollOut T E :=
  match ops s.futureIdx with
  | .ok value => ⟨.ready (.ok value), s, 0, [], [], true⟩
  | .error e =>
    let it := s.iterations + 1
    if predicate e it then
      ⟨.pending, ⟨it, some (now + backoff it), s.futureIdx + 1⟩, 1, [it], [it], true⟩
    else
      ⟨.ready (.error e), { s with iterations := it }, 0, [it], [], true⟩

/-- Embeds `RetryFuture::poll`: if `paused_until` holds a deadline that the
current time has not reached, return `Pending` untouched; otherwise clear the
pause and run the rest of the poll body. -/
def poll {T E : Type} (backoff : Nat → Nat) (ops : Nat → Except E T)
    (predicate : E → Nat → Bool) (now : Nat) (s : RetryState) : PollOut T E :=
  match s.paused_until with
  | some deadline =>
    if now < deadline then ⟨.pending, s, 0, [], [], false⟩
    else pollCore backoff ops predicate now { s with paused_until := none }
  | none => pollCore backoff ops predicate now s

/-- Drives a `RetryFuture` to completion: polls, and while the task is
pending re-polls at the registered deadline (the wake signal of the host
timer fires exactly when the pause elapses), accumulating the trace.  `fuel`
bounds the number of polls. -/
def drive {T E : Type} (backoff : Nat → Nat) (ops : Nat → Except E T)
    (predicate : E → Nat → Bool) : Nat → Nat → RetryState → RunTrace T E
  | 0, _, s => ⟨none, 0, [], [], s.iterations⟩
  | fuel + 1, now, s =>
    let o := poll backoff ops predicate now s
    match o.res with
    | .ready r => ⟨some r, o.factoryCalls, o.predArgs, o.backoffArgs, o.state.iterations⟩
    | .pending =>
      let next := match o.state.paused_until with
        | some deadline => deadline
        | none => now
      let rest := drive backoff ops predicate fuel next o.state
      ⟨rest.result, o.factoryCalls + rest.factoryCalls, o.predArgs ++ rest.predArgs,
        o.backoffArgs ++ rest.backoffArgs, rest.finalIter⟩

/-- Embeds `future::retry_if` driven to completion: the constructor invokes
the factory once eagerly (`let future = func();`), then the task starts at
`iterations = 0` with no pause pending, at clock reading 0. -/
def retry_if {T E : Type} (backoff : Nat → Nat) (ops : Nat → Except E T)
    (predicate : E → Nat → Bool) (fuel : Nat) : RunTrace T E :=
  let t := drive backoff ops predicate fuel 0 ⟨0, none, 0⟩
  { t with factoryCalls := t.factoryCalls + 1 }

end Async

/-- With the always-true predicate the synchronous loop can only stop on a
success of the operation: its result is `none` (still looping) or a success
value. -/
theorem sync_loop_true_result {T E : Type} (backoff : Nat → Nat) (ops : Nat → Except E T) :
    ∀ (fuel callIdx iterations : Nat),
      (Sync.loop backoff ops (fun _ _ => true) fuel callIdx iterations).result = none ∨
      ∃ v, (Sync.loop backoff ops (fun _ _ => true) fuel callIdx iterations).result =
        some (.ok v) := by
  intro fuel
  induction fuel with
  | zero => intro c i; exact Or.inl rfl
  | succ f ih =>
    intro c i
    cases hops : ops c with
    | ok v => exact Or.inr ⟨v, by simp [Sync.loop, hops]⟩
    | error e => simpa [Sync.loop, hops] using ih (c + 1) (i + 1)

/-- C2: the synchronous `retry` is `retry_if` with an always-true predicate
and never returns an error value: the `unreachable!()` branch (`some none`)
is never taken — every run either returns a success value of the operation or
is still looping when the fuel ends. -/
theorem sync_retry_never_errors {T E : Type} (backoff : Nat → Nat) (ops : Nat → Except E T)
    (fuel : Nat) :
    Sync.retry backoff ops fuel ≠ some none ∧
    (Sync.retry backoff ops fuel = none ∨
      ∃ v, Sync.retry backoff ops fuel = some (some v)) := by
  have h := sync_loop_true_result backoff ops fuel 0 0
  unfold Sync.retry Sync.retry_if
  rcases h with h | ⟨v, h⟩ <;> rw [h] <;> simp

/-- C3: when the operation fails at once and the predicate vetoes the first
failure (in either variant's attempt-count convention), both the synchronous
and the asynchronous `retry_if` return the original error unchanged after
exactly one factory invocation, and the backoff policy is never queried. -/
theorem retry_if_first_veto {T E : Type} (backoff : Nat → Nat) (ops : Nat → Except E T)
    (predicate : E → Nat → Bool) (e : E) (fuel : Nat) (hops : ops 0 = .error e)
    (h0 : predicate e 0 = false) (h1 : predicate e 1 = false) (hfuel : 1 ≤ fuel) :
    Sync.retry_if backoff ops predicate fuel = ⟨some (.error e), 1, [0], [], 0⟩ ∧
    Async.retry_if backoff ops predicate fuel = ⟨some (.error e), 1, [1], [], 1⟩ := by
  obtain ⟨f, rfl⟩ : ∃ f, fuel = f + 1 := ⟨fuel - 1, by omega⟩
  constructor
  · simp [Sync.retry_if, Sync.loop, hops, h0]
  · simp [Async.retry_if, Async.drive, Async.poll, Async.pollCore, hops, h1]

/-- Instantiates C3 with a constantly failing operation and a constantly
false predicate at fuel 1. -/
theorem retry_if_first_veto_check :
    Sync.retry_if (fun _ => 9) (fun _ => (Except.error 3 : Except Nat Nat))
        (fun _ _ => false) 1 = ⟨some (Except.error 3), 1, [0], [], 0⟩ ∧
    Async.retry_if (fun _ => 9) (fun _ => (Except.error 3 : Except Nat Nat))
        (fun _ _ => false) 1 = ⟨some (Except.error 3), 1, [1], [], 1⟩ :=
  retry_if_first_veto (fun _ => 9) (fun _ => Except.error 3) (fun _ _ => false) 3 1
    rfl rfl rfl (by decide)

/-- C4: on an operation failing exactly on its first two invocations, the
synchronous `retry_if` with an always-true predicate returns the third
invocation's success value, invokes the factory exactly 3 times, passes the
attempt counts 0 and 1 (one per failure, none on success) to the predicate
and the backoff policy, and ends with the counter at 2. -/
theorem sync_retry_two_failures_then_success {T E : Type} (backoff : Nat → Nat)
    (ops : Nat → Except E T) (e0 e1 : E) (v : T) (fuel : Nat) (h0 : ops 0 = .error e0)
    (h1 : ops 1 = .error e1) (h2 : ops 2 = .ok v) (hfuel : 3 ≤ fuel) :
    Sync.retry_if backoff ops (fun _ _ => true) fuel =
      ⟨some (.ok v), 3, [0, 1], [0, 1], 2⟩ := by
  obtain ⟨f, rfl⟩ : ∃ f, fuel = f + 3 := ⟨fuel - 3, by omega⟩
  simp [Sync.retry_if, Sync.loop, h0, h1, h2]

/-- Instantiates C4: fails on invocations 0 and 1, succeeds with 7 on
invocation 2, at fuel 3. -/
theorem sync_retry_two_failures_then_success_check :
    Sync.retry_if (fun _ => 5) (fun i => if i < 2 then Except.error i else Except.ok 7)
      (fun _ _ => true) 3 = ⟨some (Except.ok 7), 3, [0, 1], [0, 1], 2⟩ :=
  sync_retry_two_failures_then_success (fun _ => 5)
    (fun i => if i < 2 then Except.error i else Except.ok 7) 0 1 7 3 rfl rfl rfl
    (by decide)

/-- The post-pause poll body always polls the in-flight attempt. -/
theorem pollCore_polledInner {T E : Type} (backoff : Nat → Nat) (ops : Nat → Except E T)
    (predicate : E → Nat → Bool) (now : Nat) (s : Async.RetryState) :
    (Async.pollCore backoff ops predicate now s).polledInner = true := by
  unfold Async.pollCore
  cases ops s.futureIdx with
  | ok v => rfl
  | error e =>
    dsimp only
    by_cases hc : predicate e (s.iterations + 1) <;> simp [hc]

/-- C9: a poll in the `PausedUntil(deadline)` state before the deadline
reports `Pending` with the whole task state unchanged, creates no attempt,
queries neither predicate nor backoff, and does not poll the in-flight
attempt (the outcome is independent of the operation stream); once the
deadline is reached, the poll behaves exactly as with the pause cleared and
does poll the attempt. -/
theorem poll_paused_until {T E : Type} (backoff : Nat → Nat) (ops ops2 : Nat → Except E T)
    (predicate : E → Nat → Bool) (now deadline : Nat) (s : Async.RetryState)
    (hp : s.paused_until = some deadline) :
    (now < deadline →
      Async.poll backoff ops predicate now s = ⟨.pending, s, 0, [], [], false⟩ ∧
      Async.poll backoff ops predicate now s = Async.poll backoff ops2 predicate now s) ∧
    (deadline ≤ now →
      Async.poll backoff ops predicate now s =
        Async.poll backoff ops predicate now { s with paused_until := none } ∧
      (Async.poll backoff ops predicate now s).polledInner = true) := by
  constructor
  · intro hlt
    constructor <;> simp [Async.poll, hp, hlt]
  · intro hge
    have hnlt : ¬now < deadline := Nat.not_lt.mpr hge
    constructor
    · simp [Async.poll, hp, hnlt]
    · simp [Async.poll, hp, hnlt, pollCore_polledInner]

/-- Correspondence between an asynchronous drive trace `a` and a synchronous
loop trace `s`: same result, the async predicate and backoff arguments are the
sync ones shifted up by one, and the factory-invocation counts agree once the
async task's eager construction-time invocation is added (the async task also
pre-builds the next attempt before pausing, hence the extra invocation while
a run is still in flight). -/
def ShiftMatch {T E : Type} (a s : RunTrace T E) : Prop :=
  a.result = s.result ∧
  a.predArgs = s.predArgs.map (· + 1) ∧
  a.backoffArgs = s.backoffArgs.map (· + 1) ∧
  a.factoryCalls + 1 = s.factoryCalls + (if s.result.isNone then 1 else 0)

/-- A poll whose pause deadline (if any) has been reached behaves as the
post-pause body on the cleared state. -/
theorem poll_clear {T E : Type} (backoff : Nat → Nat) (ops : Nat → Except E T)
    (predicate : E → Nat → Bool) (now i c : Nat) (pu : Option Nat)
    (h : ∀ d, pu = some d → d ≤ now) :
    Async.poll backoff ops predicate now ⟨i, pu, c⟩ =
      Async.pollCore backoff ops predicate now ⟨i, none, c⟩ := by
  cases pu with
  | none => rfl
  | some d =>
    have hd := h d rfl
    simp [Async.poll, Nat.not_lt.mpr hd]

/-- Driving the asynchronous task (re-polling at each registered deadline)
matches the synchronous loop run with the predicate and the backoff policy
precomposed with successor on the attempt count. -/
theorem drive_shift {T E : Type} (backoff : Nat → Nat) (ops : Nat → Except E T)
    (predicate : E → Nat → Bool) :
    ∀ (fuel now i c : Nat) (pu : Option Nat), (∀ d, pu = some d → d ≤ now) →
      ShiftMatch (Async.drive backoff ops predicate fuel now ⟨i, pu, c⟩)
        (Sync.loop (fun n => backoff (n + 1)) ops (fun e n => predicate e (n + 1))
          fuel c i) := by
  intro fuel
  induction fuel with
  | zero => intro now i c pu hpu; exact ⟨rfl, rfl, rfl, rfl⟩
  | succ f ih =>
    intro now i c pu hpu
    simp only [Async.drive, poll_clear backoff ops predicate now i c pu hpu]
    cases hops : ops c with
    | ok v =>
      simp [Async.pollCore, Sync.loop, hops, ShiftMatch]
    | error e =>
      by_cases hp : predicate e (i + 1)
      · have hrest := ih (now + backoff (i + 1)) (i + 1) (c + 1)
          (some (now + backoff (i + 1)))
          (fun d hd => le_of_eq (Option.some.inj hd).symm)
        obtain ⟨hr, hpa, hba, hfc⟩ := hrest
        simp only [Async.pollCore, Sync.loop, hops, hp, if_true]
        refine ⟨hr, ?_, ?_, ?_⟩
        · simpa using hpa
        · simpa using hba
        · simp only [List.map_cons]
          cases hn : (Sync.loop (fun n => backoff (n + 1)) ops
              (fun e n => predicate e (n + 1)) f (c + 1) (i + 1)).result with
          | none => simp [hn] at hfc ⊢; omega
          | some r => simp [hn] at hfc ⊢; omega
      · simp [Async.pollCore, Sync.loop, hops, hp, ShiftMatch]

/-- C1 (amended): driven by polling at each registered deadline over the same
deterministic outcome stream, the asynchronous `retry_if` yields the same
final result as the synchronous `retry_if` with the predicate and the backoff
policy precomposed with successor on the attempt count: on the k-th failure
the async task hands attempt count k to the predicate and the backoff policy
where the sync loop hands k−1, and the factory-invocation counts agree on
every completed run (while still in flight the async task is one invocation
ahead, having eagerly built the next attempt). -/
theorem async_retry_refines_sync_shifted {T E : Type} (backoff : Nat → Nat)
    (ops : Nat → Except E T) (predicate : E → Nat → Bool) (fuel : Nat) :
    (Async.retry_if backoff ops predicate fuel).result =
      (Sync.retry_if (fun n => backoff (n + 1)) ops (fun e n => predicate e (n + 1))
        fuel).result ∧
    (Async.retry_if backoff ops predicate fuel).predArgs =
      (Sync.retry_if (fun n => backoff (n + 1)) ops (fun e n => predicate e (n + 1))
        fuel).predArgs.map (· + 1) ∧
    (Async.retry_if backoff ops predicate fuel).backoffArgs =
      (Sync.retry_if (fun n => backoff (n + 1)) ops (fun e n => predicate e (n + 1))
        fuel).backoffArgs.map (· + 1) ∧
    (Async.retry_if backoff ops predicate fuel).factoryCalls =
      (Sync.retry_if (fun n => backoff (n + 1)) ops (fun e n => predicate e (n + 1))
        fuel).factoryCalls +
        (if (Sync.retry_if (fun n => backoff (n + 1)) ops
            (fun e n => predicate e (n + 1)) fuel).result.isNone then 1 else 0) := by
  have h := drive_shift backoff ops predicate fuel 0 0 0 none (fun d hd => by cases hd)
  obtain ⟨hr, hpa, hba, hfc⟩ := h
  exact ⟨hr, hpa, hba, hfc⟩

/-- Refutes C1 as stated: over the outcome stream `Err 0, Err 1, …` with the
predicate `attempt_count == 0` given to both variants verbatim, the sync loop
passes 0 then 1 to the predicate and returns `Err 1`, while the async task
passes 1 on the first failure and returns `Err 0` — different predicate
arguments on the first failure and different final results. -/
theorem async_sync_same_predicate_cex :
    (Async.retry_if (fun _ => 0) (fun i => (Except.error i : Except Nat Nat))
        (fun _ n => n == 0) 5).result = some (Except.error 0) ∧
    (Sync.retry_if (fun _ => 0) (fun i => (Except.error i : Except Nat Nat))
        (fun _ n => n == 0) 5).result = some (Except.error 1) ∧
    (Async.retry_if (fun _ => 0) (fun i => (Except.error i : Except Nat Nat))
        (fun _ n => n == 0) 5).predArgs = [1] ∧
    (Sync.retry_if (fun _ => 0) (fun i => (Except.error i : Except Nat Nat))
        (fun _ n => n == 0) 5).predArgs = [0, 1] ∧
    (Async.retry_if (fun _ => 0) (fun i => (Except.error i : Except Nat Nat))
        (fun _ n => n == 0) 5).result ≠
      (Sync.retry_if (fun _ => 0) (fun i => (Except.error i : Except Nat Nat))
        (fun _ n => n == 0) 5).result := by
  decide

/-- Instantiates C9 at clock 5 with deadline 10: the poll pends and changes
nothing. -/
theorem poll_paused_until_check :
    Async.poll (fun _ => 7) (fun _ => (Except.ok 0 : Except Nat Nat)) (fun _ _ => true) 5
      ⟨2, some 10, 1⟩ = ⟨.pending, ⟨2, some 10, 1⟩, 0, [], [], false⟩ :=
  ((poll_paused_until (fun _ => 7) (fun _ => Except.ok 0) (fun _ => Except.ok 0)
      (fun _ _ => true) 5 10 ⟨2, some 10, 1⟩ rfl).1 (by decide)).1
